import Mathlib

/-!
Shallow embedding of `main.py` from the `class_enrollment_analysis`
repository, together with theorems settling the specification claims
about `Course`, `CourseCatalog.courses_by_level`,
`CourseCatalog.courses_by_career`, `Course.enrollement_ratio` and the
file-missing error path in `main` / `cli_interface`.

Modelling conventions: Python `int` is `Int`; Python `float` division is
exact division in `ℚ` with the `ZeroDivisionError` case returned as
`none`; Python lists are `List`; the insertion-ordered `dict` results are
association lists `List (key × value)` so that key order is observable;
`list.remove(x)` is `List.erase` (both delete the first element equal to
`x`); `itertools.chain.from_iterable` is `List.flatten`.
-/

set_option autoImplicit false

/-- The `Course` frozen dataclass of `main.py` (field for field).
Python's generated `==` compares all fields, matching `DecidableEq`. -/
structure Course where
  department : String
  number : Int
  extra_number_info : String
  name : String
  «section» : Int
  capacity : Int
  enrolled : Int
  wait_list_capacity : Int
  wait_list_total : Int
deriving DecidableEq, Repr

/-- `Course.enrollement_ratio` [sic]: `self.enrolled / self.capacity`.
Python raises `ZeroDivisionError` when `capacity == 0`; the fallible
computation is `none` there and the exact quotient otherwise. -/
def Course.enrollement_ratio (c : Course) : Option ℚ :=
  if c.capacity = 0 then none
  else some ((c.enrolled : ℚ) / (c.capacity : ℚ))

/-- The `CourseCatalog` frozen dataclass.  `date_collected` is only ever
formatted into labels, so it is kept as its ISO string. -/
structure CourseCatalog where
  semester_year : Int
  semester_season : String
  courses : List Course
  date_collected : String
deriving DecidableEq, Repr

/-- Length of Python `range(lo, hi, 1000)`: `⌈(hi - lo) / 1000⌉` clamped
at zero. -/
def pyRangeLen (lo hi : Int) : Nat := (hi - lo + 999).toNat / 1000

/-- Python `range(lo, hi, 1000)` as a list of `Int`. -/
def pyRange1000 (lo hi : Int) : List Int :=
  (List.range (pyRangeLen lo hi)).map (fun i : ℕ => lo + 1000 * (i : Int))

/-- `CourseCatalog.courses_in_level`: the courses whose `number` lies in
`[level, level + 1000)`, in catalog order. -/
def CourseCatalog.courses_in_level (cat : CourseCatalog) (level : Int) :
    List Course :=
  cat.courses.filter (fun course =>
    decide (level ≤ course.number ∧ course.number < level + 1000))

/-- `CourseCatalog.courses_by_level(min_level, max_level)`: the
insertion-ordered dict `{level: courses_in_level(level)}` for `level` in
`range(min_level, max_level + 1000, 1000)`, as an association list.
The Python defaults are `min_level=1000`, `max_level=9000`; every call
site passes the bounds explicitly here. -/
def CourseCatalog.courses_by_level (cat : CourseCatalog)
    (min_level max_level : Int) : List (Int × List Course) :=
  (pyRange1000 min_level (max_level + 1000)).map
    (fun level => (level, cat.courses_in_level level))

/-- The initial `by_career["undergrad exclusive"]` list:
`chain.from_iterable(courses_by_level(max_level=5000).values())`. -/
def CourseCatalog.ugCandidates (cat : CourseCatalog) : List Course :=
  ((cat.courses_by_level 1000 5000).map Prod.snd).flatten

/-- The initial `by_career["grad exclusive"]` list:
`chain.from_iterable(courses_by_level(min_level=6000).values())`. -/
def CourseCatalog.gradCandidates (cat : CourseCatalog) : List Course :=
  ((cat.courses_by_level 6000 9000).map Prod.snd).flatten

/-- The matching loop of `courses_by_career` (lines 147-156).  State is
`(grad exclusive, combined, undergrads_to_delete)`; for each undergrad
candidate `u` in order, the first course of the current grad-exclusive
list with `name == u.name` (if any) is erased from grad-exclusive and
appended to combined, and `u` is appended to the deletion list. -/
def careerLoop :
    List Course → List Course → List Course → List Course →
      List Course × List Course × List Course
  | [], gr, comb, dels => (gr, comb, dels)
  | u :: us, gr, comb, dels =>
    match gr.filter (fun course => course.name == u.name) with
    | [] => careerLoop us gr comb dels
    | m :: _ => careerLoop us (gr.erase m) (comb ++ [m]) (dels ++ [u])

/-- `CourseCatalog.courses_by_career`: the three-key insertion-ordered
dict, after the matching loop and the deferred removal of matched
undergrad candidates (`list.remove` = `List.erase`, first occurrence). -/
def CourseCatalog.courses_by_career (cat : CourseCatalog) :
    List (String × List Course) :=
  let r := careerLoop cat.ugCandidates cat.gradCandidates [] []
  [("undergrad exclusive",
      r.2.2.foldl (fun l u => l.erase u) cat.ugCandidates),
   ("combined", r.2.1),
   ("grad exclusive", r.1)]

/-- Dict lookup on the association-list result (defaulting to `[]`,
which never happens for the three fixed keys). -/
def groupOf (m : List (String × List Course)) (k : String) : List Course :=
  ((m.find? (fun p => p.1 == k)).map Prod.snd).getD []

/-! ### The file-missing error path (`main`, lines 249-251, and
`cli_interface`, lines 339-347) -/

/-- Python exceptions relevant to `main`'s input check. -/
inductive PyExc where
  | fileNotFoundError (msg : String)
  | nameError (nm : String)
deriving DecidableEq, Repr

/-- The names bound in the scope of `main`'s body at line 251: its
parameters plus the module-level globals of `main.py`. -/
def mainScopeNames : List String :=
  ["data_file", "show",
   "__author__", "argparse", "datetime", "dataclass", "field",
   "itertools", "json", "plt", "np", "os", "sys", "List",
   "Course", "CourseCatalog", "box_plot_x_ticks", "box_plot",
   "bar_plot_y_ticks", "bar_plot", "parse_arguments", "main",
   "cli_interface"]

/-- Lines 249-251 of `main`: if the data file does not exist, evaluate
`raise FileNotFoundError("File not found: {}".format(input_file))`.
Building the message reads the name `input_file`; an unbound name raises
`NameError` before the `FileNotFoundError` is ever constructed. -/
def mainFileGuard (data_file : String) (isFile : Bool) : Except PyExc Unit :=
  if isFile then Except.ok ()
  else if mainScopeNames.contains "input_file" then
    Except.error (PyExc.fileNotFoundError ("File not found: " ++ data_file))
  else
    Except.error (PyExc.nameError "input_file")

/-- `cli_interface` around `main`: `FileNotFoundError` is caught, printed
to stderr and turned into `sys.exit(1)`; any other exception escapes the
`try` and the interpreter terminates with a traceback and exit status 1.
Result: `(exit status, message printed by the handler)` for a run whose
data file is missing; `none` when the guard passes (the rest of `main`
is out of scope of this development). -/
def cliOutcomeOnMissing (data_file : String) (isFile : Bool) :
    Option (Int × Option String) :=
  match mainFileGuard data_file isFile with
  | Except.ok () => none
  | Except.error (PyExc.fileNotFoundError msg) => some (1, some msg)
  | Except.error (PyExc.nameError _) => some (1, none)

/-! ### Helper lemmas about the embedding -/

theorem mem_courses_in_level {cat : CourseCatalog} {l : Int} {c : Course} :
    c ∈ cat.courses_in_level l ↔
      c ∈ cat.courses ∧ l ≤ c.number ∧ c.number < l + 1000 := by
  simp [CourseCatalog.courses_in_level, List.mem_filter]

theorem pyRange_ug : pyRange1000 1000 6000 = [1000, 2000, 3000, 4000, 5000] := by
  decide

theorem pyRange_grad : pyRange1000 6000 10000 = [6000, 7000, 8000, 9000] := by
  decide

theorem mem_ugCandidates {cat : CourseCatalog} {c : Course} :
    c ∈ cat.ugCandidates ↔
      c ∈ cat.courses ∧ 1000 ≤ c.number ∧ c.number < 6000 := by
  have h : (6000 : Int) = 5000 + 1000 := by norm_num
  simp only [CourseCatalog.ugCandidates, CourseCatalog.courses_by_level, ← h,
    pyRange_ug, List.map_map, List.mem_flatten, List.mem_map]
  constructor
  · rintro ⟨_, ⟨l, hl, rfl⟩, hc⟩
    rcases mem_courses_in_level.mp hc with ⟨hmem, h1, h2⟩
    simp only [List.mem_cons, List.not_mem_nil, or_false] at hl
    refine ⟨hmem, ?_, ?_⟩ <;> rcases hl with rfl | rfl | rfl | rfl | rfl <;> omega
  · rintro ⟨hc, h1, h2⟩
    have hband : (1000 ≤ c.number ∧ c.number < 2000) ∨
        (2000 ≤ c.number ∧ c.number < 3000) ∨
        (3000 ≤ c.number ∧ c.number < 4000) ∨
        (4000 ≤ c.number ∧ c.number < 5000) ∨
        (5000 ≤ c.number ∧ c.number < 6000) := by omega
    rcases hband with h | h | h | h | h
    · exact ⟨_, ⟨1000, by simp, rfl⟩, mem_courses_in_level.mpr ⟨hc, by omega, by omega⟩⟩
    · exact ⟨_, ⟨2000, by simp, rfl⟩, mem_courses_in_level.mpr ⟨hc, by omega, by omega⟩⟩
    · exact ⟨_, ⟨3000, by simp, rfl⟩, mem_courses_in_level.mpr ⟨hc, by omega, by omega⟩⟩
    · exact ⟨_, ⟨4000, by simp, rfl⟩, mem_courses_in_level.mpr ⟨hc, by omega, by omega⟩⟩
    · exact ⟨_, ⟨5000, by simp, rfl⟩, mem_courses_in_level.mpr ⟨hc, by omega, by omega⟩⟩

theorem mem_gradCandidates {cat : CourseCatalog} {c : Course} :
    c ∈ cat.gradCandidates ↔
      c ∈ cat.courses ∧ 6000 ≤ c.number ∧ c.number < 10000 := by
  have h : (10000 : Int) = 9000 + 1000 := by norm_num
  simp only [CourseCatalog.gradCandidates, CourseCatalog.courses_by_level, ← h,
    pyRange_grad, List.map_map, List.mem_flatten, List.mem_map]
  constructor
  · rintro ⟨_, ⟨l, hl, rfl⟩, hc⟩
    rcases mem_courses_in_level.mp hc with ⟨hmem, h1, h2⟩
    simp only [List.mem_cons, List.not_mem_nil, or_false] at hl
    refine ⟨hmem, ?_, ?_⟩ <;> rcases hl with rfl | rfl | rfl | rfl <;> omega
  · rintro ⟨hc, h1, h2⟩
    have hband : (6000 ≤ c.number ∧ c.number < 7000) ∨
        (7000 ≤ c.number ∧ c.number < 8000) ∨
        (8000 ≤ c.number ∧ c.number < 9000) ∨
        (9000 ≤ c.number ∧ c.number < 10000) := by omega
    rcases hband with h | h | h | h
    · exact ⟨_, ⟨6000, by simp, rfl⟩, mem_courses_in_level.mpr ⟨hc, by omega, by omega⟩⟩
    · exact ⟨_, ⟨7000, by simp, rfl⟩, mem_courses_in_level.mpr ⟨hc, by omega, by omega⟩⟩
    · exact ⟨_, ⟨8000, by simp, rfl⟩, mem_courses_in_level.mpr ⟨hc, by omega, by omega⟩⟩
    · exact ⟨_, ⟨9000, by simp, rfl⟩, mem_courses_in_level.mpr ⟨hc, by omega, by omega⟩⟩

/-- Master invariant of the matching loop.  Writing
`(grF, comb', dels') := careerLoop us gr comb dels`:
grad-exclusive only shrinks (as a sublist); every course newly in
combined came from grad-exclusive and matches the name of some undergrad
candidate; every newly deleted undergrad is an undergrad candidate with
a name match in grad-exclusive; a grad course whose name matches no
undergrad candidate survives; and each match moves exactly one course
from grad-exclusive to combined. -/
theorem careerLoop_spec (us : List Course) :
    ∀ gr comb dels : List Course,
      List.Sublist (careerLoop us gr comb dels).1 gr ∧
      (∀ c ∈ (careerLoop us gr comb dels).2.1,
          c ∈ comb ∨ (c ∈ gr ∧ ∃ u ∈ us, c.name = u.name)) ∧
      (∀ d ∈ (careerLoop us gr comb dels).2.2,
          d ∈ dels ∨ (d ∈ us ∧ ∃ g ∈ gr, g.name = d.name)) ∧
      (∀ c ∈ gr, (∀ u ∈ us, c.name ≠ u.name) →
          c ∈ (careerLoop us gr comb dels).1) ∧
      (careerLoop us gr comb dels).1.length +
          (careerLoop us gr comb dels).2.1.length =
        gr.length + comb.length := by
  induction us with
  | nil =>
    intro gr comb dels
    exact ⟨List.Sublist.refl _, fun c hc => Or.inl hc,
      fun d hd => Or.inl hd, fun c hc _ => hc, rfl⟩
  | cons u us ih =>
    intro gr comb dels
    show List.Sublist (careerLoop (u :: us) gr comb dels).1 gr ∧ _
    rcases hfil : gr.filter (fun course => course.name == u.name) with
      _ | ⟨m, rest⟩
    · have hloop : careerLoop (u :: us) gr comb dels =
          careerLoop us gr comb dels := by
        simp [careerLoop, hfil]
      rw [hloop]
      obtain ⟨h1, h2, h3, h4, h5⟩ := ih gr comb dels
      refine ⟨h1, ?_, ?_, ?_, h5⟩
      · intro c hc
        rcases h2 c hc with h | ⟨hg, u', hu', hn⟩
        · exact Or.inl h
        · exact Or.inr ⟨hg, u', List.mem_cons_of_mem _ hu', hn⟩
      · intro d hd
        rcases h3 d hd with h | ⟨hdu, g, hg, hn⟩
        · exact Or.inl h
        · exact Or.inr ⟨List.mem_cons_of_mem _ hdu, g, hg, hn⟩
      · intro c hc hnames
        exact h4 c hc (fun u' hu' => hnames u' (List.mem_cons_of_mem _ hu'))
    · have hm_mem : m ∈ gr := by
        exact List.mem_of_mem_filter (hfil ▸ List.mem_cons_self m rest)
      have hm_name : m.name = u.name := by
        have := List.of_mem_filter (hfil ▸ List.mem_cons_self m rest)
        simpa using this
      have hloop : careerLoop (u :: us) gr comb dels =
          careerLoop us (gr.erase m) (comb ++ [m]) (dels ++ [u]) := by
        simp [careerLoop, hfil]
      rw [hloop]
      obtain ⟨h1, h2, h3, h4, h5⟩ := ih (gr.erase m) (comb ++ [m]) (dels ++ [u])
      refine ⟨h1.trans (List.erase_sublist m gr), ?_, ?_, ?_, ?_⟩
      · intro c hc
        rcases h2 c hc with h | ⟨hg, u', hu', hn⟩
        · rcases List.mem_append.mp h with h | h
          · exact Or.inl h
          · have hc_eq : c = m := by simpa using h
            exact Or.inr ⟨hc_eq ▸ hm_mem, u, List.mem_cons_self _ _,
              by rw [hc_eq, hm_name]⟩
        · exact Or.inr ⟨List.mem_of_mem_erase hg, u',
            List.mem_cons_of_mem _ hu', hn⟩
      · intro d hd
        rcases h3 d hd with h | ⟨hdu, g, hg, hn⟩
        · rcases List.mem_append.mp h with h | h
          · exact Or.inl h
          · have hd_eq : d = u := by simpa using h
            exact Or.inr ⟨hd_eq ▸ List.mem_cons_self _ _, m, hm_mem,
              by rw [hm_name, hd_eq]⟩
        · exact Or.inr ⟨List.mem_cons_of_mem _ hdu, g,
            List.mem_of_mem_erase hg, hn⟩
      · intro c hc hnames
        have hne : c ≠ m := by
          intro hcm
          exact hnames u (List.mem_cons_self _ _) (hcm ▸ hm_name)
        have hc' : c ∈ gr.erase m := (List.mem_erase_of_ne hne).mpr hc
        exact h4 c hc' (fun u' hu' => hnames u' (List.mem_cons_of_mem _ hu'))
      · have hpos : 0 < gr.length := List.length_pos_of_mem hm_mem
        have herase : (gr.erase m).length = gr.length - 1 :=
          List.length_erase_of_mem hm_mem
        simp only [herase, List.length_append, List.length_cons,
          List.length_nil] at h5
        omega

/-- The deferred-removal loop only deletes elements: its result is a
sublist of the starting list. -/
theorem foldl_erase_sublist (dels : List Course) :
    ∀ l : List Course,
      List.Sublist (dels.foldl (fun acc d => acc.erase d) l) l := by
  induction dels with
  | nil => intro l; exact List.Sublist.refl _
  | cons d dels ih =>
    intro l
    exact (ih (l.erase d)).trans (List.erase_sublist d l)

/-- An element different from everything in the deletion list survives
the deferred-removal loop. -/
theorem mem_foldl_erase {c : Course} (dels : List Course) :
    ∀ l : List Course, c ∈ l → (∀ d ∈ dels, c ≠ d) →
      c ∈ dels.foldl (fun acc d => acc.erase d) l := by
  induction dels with
  | nil => intro l hc _; exact hc
  | cons d dels ih =>
    intro l hc hne
    have hcd : c ≠ d := hne d (List.mem_cons_self _ _)
    exact ih (l.erase d) ((List.mem_erase_of_ne hcd).mpr hc)
      (fun d' hd' => hne d' (List.mem_cons_of_mem _ hd'))

/-- Reading the `"undergrad exclusive"` entry of the result dict. -/
theorem groupOf_uex (cat : CourseCatalog) :
    groupOf cat.courses_by_career "undergrad exclusive" =
      (careerLoop cat.ugCandidates cat.gradCandidates [] []).2.2.foldl
        (fun l u => l.erase u) cat.ugCandidates := by
  rfl

/-- Reading the `"combined"` entry of the result dict. -/
theorem groupOf_combined (cat : CourseCatalog) :
    groupOf cat.courses_by_career "combined" =
      (careerLoop cat.ugCandidates cat.gradCandidates [] []).2.1 := by
  rfl

/-- Reading the `"grad exclusive"` entry of the result dict. -/
theorem groupOf_grex (cat : CourseCatalog) :
    groupOf cat.courses_by_career "grad exclusive" =
      (careerLoop cat.ugCandidates cat.gradCandidates [] []).1 := by
  rfl

/-! ### Concrete courses and catalogs used in examples, counterexamples
and witnesses -/

/-- A concrete course with the given number and name; the remaining
fields are fixed benign values (`capacity 30`, `enrolled 25`). -/
def mkCourse (num : Int) (nm : String) : Course :=
  ⟨"CS", num, "", nm, 1, 30, 25, 0, 0⟩

/-- A catalog (Fall 2021) over the given course list. -/
def mkCatalog (cs : List Course) : CourseCatalog :=
  ⟨2021, "Fall", cs, "2021-12-08"⟩

/-- The spec's "Data Structures" example: undergrad 5301 and grad 6301
with identical names. -/
def dsCatalog : CourseCatalog :=
  mkCatalog [mkCourse 5301 "Data Structures", mkCourse 6301 "Data Structures"]

/-- The spec's "Seminar" example: undergrad 5100 and 5150, grad 6100,
all named "Seminar". -/
def seminarCatalog : CourseCatalog :=
  mkCatalog [mkCourse 5100 "Seminar", mkCourse 5150 "Seminar",
    mkCourse 6100 "Seminar"]

/-- A duplicate-grad-name scenario: one undergrad "Seminar" and two grad
courses both named "Seminar" (6100 first in catalog order, then 6200). -/
def seminarDupGradCatalog : CourseCatalog :=
  mkCatalog [mkCourse 5100 "Seminar", mkCourse 6100 "Seminar",
    mkCourse 6200 "Seminar"]

/-- A catalog whose two courses sit in different undergrad bands, listed
against band order: number 2500 first, then 1500. -/
def bandOrderCatalog : CourseCatalog :=
  mkCatalog [mkCourse 2500 "Algorithms", mkCourse 1500 "Basics"]

/-- A catalog with a 3000-level undergrad course and a grad course of
the same name. -/
def lowLevelMatchCatalog : CourseCatalog :=
  mkCatalog [mkCourse 3301 "Algorithms", mkCourse 6301 "Algorithms"]

/-! ### Claims -/

/-- C10: for every catalog, `courses_by_career` returns a mapping with
exactly the three keys "undergrad exclusive", "combined",
"grad exclusive", in that fixed iteration order, regardless of the
catalog's contents. -/
theorem claimC10_career_keys (cat : CourseCatalog) :
    cat.courses_by_career.map Prod.fst =
      ["undergrad exclusive", "combined", "grad exclusive"] := rfl

/-- C9: every course in the "combined" list returned by
`courses_by_career` is drawn from the candidate-grad set, so it has
number ≥ 6000 (no course with number < 6000 ever appears there). -/
theorem claimC9_combined_only_grad (cat : CourseCatalog) (c : Course)
    (hc : c ∈ groupOf cat.courses_by_career "combined") :
    6000 ≤ c.number := by
  rw [groupOf_combined] at hc
  obtain ⟨_, h2, _, _, _⟩ :=
    careerLoop_spec cat.ugCandidates cat.gradCandidates [] []
  rcases h2 c hc with h | ⟨hg, _, _, _⟩
  · simp at h
  · exact (mem_gradCandidates.mp hg).2.1

/-- Witness for C9 at the "Data Structures" example catalog. -/
theorem claimC9_witness :
    mkCourse 6301 "Data Structures" ∈
        groupOf dsCatalog.courses_by_career "combined" ∧
      6000 ≤ (mkCourse 6301 "Data Structures").number :=
  ⟨by decide, claimC9_combined_only_grad dsCatalog _ (by decide)⟩

/-- C6: for capacity > 0 the enrollment ratio is exactly
`enrolled / capacity`; for capacity = 0 the computation fails (returns
`none`, the `ZeroDivisionError` case) instead of producing a value. -/
theorem claimC6_enrollement_ratio (c : Course) :
    (0 < c.capacity →
      c.enrollement_ratio = some ((c.enrolled : ℚ) / (c.capacity : ℚ))) ∧
    (c.capacity = 0 → c.enrollement_ratio = none) := by
  constructor
  · intro h
    have hne : c.capacity ≠ 0 := by omega
    simp [Course.enrollement_ratio, hne]
  · intro h
    simp [Course.enrollement_ratio, h]

/-- A course with `capacity == 0`. -/
def zeroCapacityCourse : Course := ⟨"CS", 5301, "", "Full", 1, 0, 10, 0, 0⟩

/-- Witness for C6: capacity 30 / enrolled 25 gives ratio 25/30 = 5/6,
and the zero-capacity course fails. -/
theorem claimC6_witness :
    (0 < (mkCourse 5301 "X").capacity ∧
      (mkCourse 5301 "X").enrollement_ratio = some (25 / 30 : ℚ)) ∧
    (zeroCapacityCourse.capacity = 0 ∧
      zeroCapacityCourse.enrollement_ratio = none) := by
  refine ⟨⟨by decide, ?_⟩, ⟨rfl, (claimC6_enrollement_ratio _).2 rfl⟩⟩
  have h := (claimC6_enrollement_ratio (mkCourse 5301 "X")).1 (by decide)
  rw [h]
  norm_num [mkCourse]

/-- C7: with a nonexistent data file, line 251 of `main` raises
`NameError` (the name `input_file` is unbound there), not the
`FileNotFoundError` documented in `main`'s own docstring; consequently
`cli_interface`'s `except FileNotFoundError` handler never fires
(`cliOutcomeOnMissing` reports exit status 1 with no handler message). -/
theorem claimC7_guard_raises_name_error (data_file : String) :
    mainFileGuard data_file false =
        Except.error (PyExc.nameError "input_file") ∧
      (∀ msg, mainFileGuard data_file false ≠
        Except.error (PyExc.fileNotFoundError msg)) ∧
      cliOutcomeOnMissing data_file false = some (1, none) := by
  have hscope : "input_file" ∉ mainScopeNames := by decide
  refine ⟨?_, ?_, ?_⟩
  · simp [mainFileGuard, hscope]
  · intro msg
    simp [mainFileGuard, hscope]
  · simp [cliOutcomeOnMissing, mainFileGuard, hscope]

/-- C8: an empty catalog yields three empty career groups and only
empty level buckets, with no failure. -/
theorem claimC8_empty_catalog (cat : CourseCatalog)
    (h : cat.courses = []) :
    cat.courses_by_career =
        [("undergrad exclusive", []), ("combined", []),
         ("grad exclusive", [])] ∧
      ∀ min_level max_level : Int,
        ∀ p ∈ cat.courses_by_level min_level max_level, p.2 = [] := by
  have hlevel : ∀ l : Int, cat.courses_in_level l = [] := by
    intro l
    simp [CourseCatalog.courses_in_level, h]
  have h6 : (6000 : Int) = 5000 + 1000 := by norm_num
  have h10 : (10000 : Int) = 9000 + 1000 := by norm_num
  have hug : cat.ugCandidates = [] := by
    simp [CourseCatalog.ugCandidates, CourseCatalog.courses_by_level, ← h6,
      pyRange_ug, hlevel]
  have hgr : cat.gradCandidates = [] := by
    simp [CourseCatalog.gradCandidates, CourseCatalog.courses_by_level, ← h10,
      pyRange_grad, hlevel]
  constructor
  · simp [CourseCatalog.courses_by_career, hug, hgr, careerLoop]
  · intro min_level max_level p hp
    simp only [CourseCatalog.courses_by_level, List.mem_map] at hp
    obtain ⟨l, _, rfl⟩ := hp
    exact hlevel l

/-- Witness for C8 at the literal empty catalog. -/
theorem claimC8_witness :
    (mkCatalog []).courses = [] ∧
      ((mkCatalog []).courses_by_career =
        [("undergrad exclusive", []), ("combined", []),
         ("grad exclusive", [])] ∧
      ∀ min_level max_level : Int,
        ∀ p ∈ (mkCatalog []).courses_by_level min_level max_level,
          p.2 = []) :=
  ⟨rfl, claimC8_empty_catalog (mkCatalog []) rfl⟩

/-- In a catalog holding exactly an undergrad-range course `U` and a
grad-range course `G`, the undergrad candidates are `[U]`. -/
theorem ugCandidates_pair (U G : Course) (sy : Int) (ss ds : String)
    (hU1 : 1000 ≤ U.number) (hU2 : U.number < 6000)
    (hG1 : 6000 ≤ G.number) :
    (CourseCatalog.mk sy ss [U, G] ds).ugCandidates = [U] := by
  have h6 : (6000 : Int) = 5000 + 1000 := by norm_num
  have g1 : ¬((1000 : Int) ≤ G.number ∧ G.number < 1000 + 1000) := by omega
  have g2 : ¬((2000 : Int) ≤ G.number ∧ G.number < 2000 + 1000) := by omega
  have g3 : ¬((3000 : Int) ≤ G.number ∧ G.number < 3000 + 1000) := by omega
  have g4 : ¬((4000 : Int) ≤ G.number ∧ G.number < 4000 + 1000) := by omega
  have g5 : ¬((5000 : Int) ≤ G.number ∧ G.number < 5000 + 1000) := by omega
  simp only [CourseCatalog.ugCandidates, CourseCatalog.courses_by_level, ← h6,
    pyRange_ug, List.map_map, Function.comp, List.map_cons, List.map_nil,
    CourseCatalog.courses_in_level, List.filter_cons, List.filter_nil,
    decide_eq_true_eq, if_neg g1, if_neg g2, if_neg g3, if_neg g4, if_neg g5]
  split_ifs <;> first | rfl | omega

/-- In the same two-course catalog, the grad candidates are `[G]`. -/
theorem gradCandidates_pair (U G : Course) (sy : Int) (ss ds : String)
    (hU2 : U.number < 6000) (hG1 : 6000 ≤ G.number)
    (hG2 : G.number < 10000) :
    (CourseCatalog.mk sy ss [U, G] ds).gradCandidates = [G] := by
  have h10 : (10000 : Int) = 9000 + 1000 := by norm_num
  have u1 : ¬((6000 : Int) ≤ U.number ∧ U.number < 6000 + 1000) := by omega
  have u2 : ¬((7000 : Int) ≤ U.number ∧ U.number < 7000 + 1000) := by omega
  have u3 : ¬((8000 : Int) ≤ U.number ∧ U.number < 8000 + 1000) := by omega
  have u4 : ¬((9000 : Int) ≤ U.number ∧ U.number < 9000 + 1000) := by omega
  simp only [CourseCatalog.gradCandidates, CourseCatalog.courses_by_level,
    ← h10, pyRange_grad, List.map_map, Function.comp, List.map_cons,
    List.map_nil, CourseCatalog.courses_in_level, List.filter_cons,
    List.filter_nil, decide_eq_true_eq, if_neg u1, if_neg u2, if_neg u3,
    if_neg u4]
  split_ifs <;> first | rfl | omega

/-- C1 counterexample: in the "Data Structures" catalog the "combined"
group is exactly the grad course 6301; the undergrad course 5301 is not
moved into "combined" (contradicting the claim that `U` is the
representative kept). -/
theorem claimC1_counterexample :
    groupOf dsCatalog.courses_by_career "combined" =
        [mkCourse 6301 "Data Structures"] ∧
      mkCourse 5301 "Data Structures" ∉
        groupOf dsCatalog.courses_by_career "combined" := by
  decide

/-- C1 amended: when an undergrad-range course `U` has a grad-range
course `G` with an identical name, `courses_by_career` moves `G` (not
`U`) into "combined", removes `G` from "grad exclusive" and removes `U`
from "undergrad exclusive" without adding `U` to any output group. -/
theorem claimC1_amended_grad_is_kept (U G : Course) (sy : Int)
    (ss ds : String)
    (hU1 : 1000 ≤ U.number) (hU2 : U.number < 6000)
    (hG1 : 6000 ≤ G.number) (hG2 : G.number < 10000)
    (hname : U.name = G.name) :
    (CourseCatalog.mk sy ss [U, G] ds).courses_by_career =
      [("undergrad exclusive", []), ("combined", [G]),
       ("grad exclusive", [])] := by
  have hug := ugCandidates_pair U G sy ss ds hU1 hU2 hG1
  have hgr := gradCandidates_pair U G sy ss ds hU2 hG1 hG2
  have hfil : [G].filter (fun course => course.name == U.name) = [G] := by
    simp [hname]
  have hloop : careerLoop [U] [G] [] [] = ([], [G], [U]) := by
    simp [careerLoop, hfil]
  simp [CourseCatalog.courses_by_career, hug, hgr, hloop]

/-- Witness for C1 (amended) at the concrete "Data Structures" pair. -/
theorem claimC1_witness :
    (1000 ≤ (mkCourse 5301 "Data Structures").number ∧
      (mkCourse 5301 "Data Structures").number < 6000 ∧
      6000 ≤ (mkCourse 6301 "Data Structures").number ∧
      (mkCourse 6301 "Data Structures").number < 10000 ∧
      (mkCourse 5301 "Data Structures").name =
        (mkCourse 6301 "Data Structures").name) ∧
    dsCatalog.courses_by_career =
      [("undergrad exclusive", []),
       ("combined", [mkCourse 6301 "Data Structures"]),
       ("grad exclusive", [])] :=
  ⟨by decide,
    claimC1_amended_grad_is_kept (mkCourse 5301 "Data Structures")
      (mkCourse 6301 "Data Structures") 2021 "Fall" "2021-12-08"
      (by decide) (by decide) (by decide) (by decide) rfl⟩

/-- C2 counterexample: the 3000-level course "Algorithms" (number 3301,
inside 1000-4999) does *not* land in "undergrad exclusive" — the
matching loop runs over all undergrad candidates, not only the
5000-level ones, and deletes it because a grad course shares its name. -/
theorem claimC2_counterexample :
    mkCourse 3301 "Algorithms" ∈ lowLevelMatchCatalog.courses ∧
      1000 ≤ (mkCourse 3301 "Algorithms").number ∧
      (mkCourse 3301 "Algorithms").number ≤ 4999 ∧
      mkCourse 3301 "Algorithms" ∉
        groupOf lowLevelMatchCatalog.courses_by_career
          "undergrad exclusive" := by
  decide

/-- C2 amended: a course with number in 1000-5999 lands in
"undergrad exclusive" unless a grad-range course (6000-9999) shares its
name; a course with number in 6000-9999 lands in "grad exclusive" unless
an undergrad-range course shares its name; and the courses that migrate
into "combined" are grad-range courses, triggered by a name match with
any undergrad-range course (1000-5999, not only 5000-5999). -/
theorem claimC2_amended_group_invariants (cat : CourseCatalog) :
    (∀ c ∈ cat.courses, 1000 ≤ c.number → c.number < 6000 →
      (∀ g ∈ cat.courses, 6000 ≤ g.number → g.number < 10000 →
        g.name ≠ c.name) →
      c ∈ groupOf cat.courses_by_career "undergrad exclusive") ∧
    (∀ c ∈ cat.courses, 6000 ≤ c.number → c.number < 10000 →
      (∀ u ∈ cat.courses, 1000 ≤ u.number → u.number < 6000 →
        u.name ≠ c.name) →
      c ∈ groupOf cat.courses_by_career "grad exclusive") ∧
    (∀ c ∈ groupOf cat.courses_by_career "combined",
      (6000 ≤ c.number ∧ c.number < 10000) ∧
      ∃ u ∈ cat.courses, 1000 ≤ u.number ∧ u.number < 6000 ∧
        u.name = c.name) := by
  obtain ⟨h1, h2, h3, h4, _⟩ :=
    careerLoop_spec cat.ugCandidates cat.gradCandidates [] []
  refine ⟨?_, ?_, ?_⟩
  · intro c hc hlo hhi hnomatch
    rw [groupOf_uex]
    refine mem_foldl_erase _ _ (mem_ugCandidates.mpr ⟨hc, hlo, hhi⟩) ?_
    intro d hd hcd
    rcases h3 d hd with h | ⟨_, g, hg, hgname⟩
    · simp at h
    · obtain ⟨hgmem, hg1, hg2⟩ := mem_gradCandidates.mp hg
      exact hnomatch g hgmem hg1 hg2 (by rw [hgname, ← hcd])
  · intro c hc hlo hhi hnomatch
    rw [groupOf_grex]
    refine h4 c (mem_gradCandidates.mpr ⟨hc, hlo, hhi⟩) ?_
    intro u hu
    obtain ⟨humem, hu1, hu2⟩ := mem_ugCandidates.mp hu
    exact fun h => hnomatch u humem hu1 hu2 h.symm
  · intro c hc
    rw [groupOf_combined] at hc
    rcases h2 c hc with h | ⟨hg, u, hu, hn⟩
    · simp at h
    · obtain ⟨_, hg1, hg2⟩ := mem_gradCandidates.mp hg
      obtain ⟨humem, hu1, hu2⟩ := mem_ugCandidates.mp hu
      exact ⟨⟨hg1, hg2⟩, u, humem, hu1, hu2, hn.symm⟩

/-- A catalog with one unmatched undergrad and one unmatched grad
course. -/
def unmatchedCatalog : CourseCatalog :=
  mkCatalog [mkCourse 2301 "Calculus", mkCourse 6401 "Logic"]

/-- Witness for C2 (amended) at `unmatchedCatalog`: the hypotheses of
both "unless" parts hold there and the courses stay in their groups. -/
theorem claimC2_witness :
    (mkCourse 2301 "Calculus" ∈ unmatchedCatalog.courses ∧
      mkCourse 2301 "Calculus" ∈
        groupOf unmatchedCatalog.courses_by_career "undergrad exclusive") ∧
    (mkCourse 6401 "Logic" ∈ unmatchedCatalog.courses ∧
      mkCourse 6401 "Logic" ∈
        groupOf unmatchedCatalog.courses_by_career "grad exclusive") :=
  ⟨⟨by decide,
    (claimC2_amended_group_invariants unmatchedCatalog).1
      (mkCourse 2301 "Calculus") (by decide) (by decide) (by decide)
      (by decide)⟩,
   ⟨by decide,
    (claimC2_amended_group_invariants unmatchedCatalog).2.1
      (mkCourse 6401 "Logic") (by decide) (by decide) (by decide)
      (by decide)⟩⟩

/-- C3 counterexample: in the "Seminar" catalog neither of the two
undergrad courses is merged into "combined" — "combined" holds the grad
course 6100 instead. -/
theorem claimC3_counterexample :
    mkCourse 5100 "Seminar" ∉
        groupOf seminarCatalog.courses_by_career "combined" ∧
      mkCourse 5150 "Seminar" ∉
        groupOf seminarCatalog.courses_by_career "combined" ∧
      groupOf seminarCatalog.courses_by_career "combined" =
        [mkCourse 6100 "Seminar"] := by
  decide

/-- C3 amended: the first undergrad "Seminar" (5100) consumes the grad
course: the grad course lands in "combined", 5100 is removed from
output, 5150 stays in "undergrad exclusive".  Each match consumes
exactly one grad course (in every catalog, grad-exclusive plus combined
lengths add up to the grad-candidate count), and with duplicate grad
names only the first grad course in candidate order is consumed: the
later duplicate stays in "grad exclusive". -/
theorem claimC3_amended_first_match :
    (∀ cat : CourseCatalog,
      (groupOf cat.courses_by_career "grad exclusive").length +
          (groupOf cat.courses_by_career "combined").length =
        cat.gradCandidates.length) ∧
    seminarCatalog.courses_by_career =
      [("undergrad exclusive", [mkCourse 5150 "Seminar"]),
       ("combined", [mkCourse 6100 "Seminar"]),
       ("grad exclusive", [])] ∧
    seminarDupGradCatalog.courses_by_career =
      [("undergrad exclusive", []),
       ("combined", [mkCourse 6100 "Seminar"]),
       ("grad exclusive", [mkCourse 6200 "Seminar"])] := by
  refine ⟨?_, by decide, by decide⟩
  intro cat
  obtain ⟨_, _, _, _, h5⟩ :=
    careerLoop_spec cat.ugCandidates cat.gradCandidates [] []
  rw [groupOf_grex, groupOf_combined]
  simpa using h5

/-- C4 counterexample: a catalog listing a 2000-level course before a
1000-level course; "undergrad exclusive" returns them in band order,
reversing the catalog's relative order (it is not a sublist of the
catalog sequence). -/
theorem claimC4_counterexample :
    groupOf bandOrderCatalog.courses_by_career "undergrad exclusive" =
        [mkCourse 1500 "Basics", mkCourse 2500 "Algorithms"] ∧
      bandOrderCatalog.courses =
        [mkCourse 2500 "Algorithms", mkCourse 1500 "Basics"] ∧
      ¬ List.Sublist
          (groupOf bandOrderCatalog.courses_by_career "undergrad exclusive")
          bandOrderCatalog.courses := by
  decide

/-- C4 amended: the exclusive groups are ordered by ascending 1000-level
band, with the catalog's relative order preserved only within each band:
"undergrad exclusive" (resp. "grad exclusive") is a sublist of the
concatenation of the five (resp. four) band buckets, and every band
bucket preserves catalog order.  "combined" consists of grad candidates
(ordered by match, not by catalog position). -/
theorem claimC4_amended_band_order (cat : CourseCatalog) :
    cat.ugCandidates =
        ([1000, 2000, 3000, 4000, 5000].map
          (fun l => cat.courses.filter (fun c =>
            decide (l ≤ c.number ∧ c.number < l + 1000)))).flatten ∧
      cat.gradCandidates =
        ([6000, 7000, 8000, 9000].map
          (fun l => cat.courses.filter (fun c =>
            decide (l ≤ c.number ∧ c.number < l + 1000)))).flatten ∧
      List.Sublist (groupOf cat.courses_by_career "undergrad exclusive")
        cat.ugCandidates ∧
      List.Sublist (groupOf cat.courses_by_career "grad exclusive")
        cat.gradCandidates ∧
      (∀ l : Int, List.Sublist (cat.courses_in_level l) cat.courses) ∧
      (∀ c ∈ groupOf cat.courses_by_career "combined",
        c ∈ cat.gradCandidates) := by
  obtain ⟨h1, h2, _, _, _⟩ :=
    careerLoop_spec cat.ugCandidates cat.gradCandidates [] []
  refine ⟨rfl, rfl, ?_, ?_, ?_, ?_⟩
  · rw [groupOf_uex]
    exact foldl_erase_sublist _ _
  · rw [groupOf_grex]
    exact h1
  · intro l
    exact List.filter_sublist _
  · intro c hc
    rw [groupOf_combined] at hc
    rcases h2 c hc with h | ⟨hg, _⟩
    · simp at h
    · exact hg

/-- The level keys produced by `courses_by_level`, under the contract's
hypotheses (`1000 ∣ L_min`, `1000 ∣ L_max`, `L_min ≤ L_max`): there are
`(L_max - L_min)/1000 + 1` of them. -/
theorem pyRangeLen_of_bounds {Lmin Lmax : Int} (hle : Lmin ≤ Lmax)
    (hmin : 1000 ∣ Lmin) (hmax : 1000 ∣ Lmax) :
    pyRangeLen Lmin (Lmax + 1000) = ((Lmax - Lmin) / 1000).toNat + 1 := by
  unfold pyRangeLen
  omega


/-- Membership in the `courses_by_level` association list: the entries
are exactly the pairs `(L_min + 1000 i, courses_in_level (L_min + 1000 i))`
for `i` below the range length. -/
theorem mem_courses_by_level {cat : CourseCatalog} {Lmin Lmax : Int}
    {p : Int × List Course} :
    p ∈ cat.courses_by_level Lmin Lmax ↔
      ∃ i : ℕ, i < pyRangeLen Lmin (Lmax + 1000) ∧
        p = (Lmin + 1000 * (i : Int),
             cat.courses_in_level (Lmin + 1000 * (i : Int))) := by
  simp only [CourseCatalog.courses_by_level, pyRange1000, List.mem_map,
    List.mem_range]
  constructor
  · rintro ⟨l, ⟨i, hi, rfl⟩, rfl⟩
    exact ⟨i, hi, rfl⟩
  · rintro ⟨i, hi, rfl⟩
    exact ⟨Lmin + 1000 * (i : Int), ⟨i, hi, rfl⟩, rfl⟩

/-- C5: `courses_by_level` returns the ordered band keys
`L_min, L_min + 1000, …, L_max`; every band holds exactly the catalog's
courses (in order) with number in `[band, band + 1000)` (bands with no
matching course are present with `[]`); the buckets are pairwise
disjoint; and their union is exactly the courses with number in
`[L_min, L_max + 1000)`, courses outside that range appearing in no
band. -/
theorem claimC5_courses_by_level_contract (cat : CourseCatalog)
    (Lmin Lmax : Int) (hle : Lmin ≤ Lmax)
    (hmin : 1000 ∣ Lmin) (hmax : 1000 ∣ Lmax) :
    ((cat.courses_by_level Lmin Lmax).map Prod.fst =
      (List.range (((Lmax - Lmin) / 1000).toNat + 1)).map
        (fun i : ℕ => Lmin + 1000 * (i : Int))) ∧
    (∀ p ∈ cat.courses_by_level Lmin Lmax,
      p.2 = cat.courses.filter (fun c =>
        decide (p.1 ≤ c.number ∧ c.number < p.1 + 1000))) ∧
    List.Pairwise (fun p q => ∀ c, c ∈ p.2 → c ∉ q.2)
      (cat.courses_by_level Lmin Lmax) ∧
    (∀ c, (∃ p ∈ cat.courses_by_level Lmin Lmax, c ∈ p.2) ↔
      (c ∈ cat.courses ∧ Lmin ≤ c.number ∧ c.number < Lmax + 1000)) := by
  have hn := pyRangeLen_of_bounds hle hmin hmax
  refine ⟨?_, ?_, ?_, ?_⟩
  · simp only [CourseCatalog.courses_by_level, pyRange1000, hn,
      List.map_map]
    rfl
  · intro p hp
    simp only [CourseCatalog.courses_by_level, List.mem_map] at hp
    obtain ⟨l, _, rfl⟩ := hp
    rfl
  · simp only [CourseCatalog.courses_by_level, pyRange1000]
    rw [List.pairwise_map, List.pairwise_map]
    apply (List.pairwise_lt_range _).imp
    intro i j hij c hci hcj
    obtain ⟨_, h1, h2⟩ := mem_courses_in_level.mp hci
    obtain ⟨_, h3, h4⟩ := mem_courses_in_level.mp hcj
    omega
  · intro c
    constructor
    · rintro ⟨p, hp, hc⟩
      obtain ⟨i, hi, rfl⟩ := mem_courses_by_level.mp hp
      rw [hn] at hi
      obtain ⟨hmem, hlo, hhi⟩ := mem_courses_in_level.mp hc
      exact ⟨hmem, by omega, by omega⟩
    · rintro ⟨hmem, hlo, hhi⟩
      refine ⟨(Lmin + 1000 * (((c.number - Lmin) / 1000).toNat : Int),
          cat.courses_in_level
            (Lmin + 1000 * (((c.number - Lmin) / 1000).toNat : Int))),
        ?_, ?_⟩
      · exact mem_courses_by_level.mpr
          ⟨((c.number - Lmin) / 1000).toNat, by rw [hn]; omega, rfl⟩
      · exact mem_courses_in_level.mpr ⟨hmem, by omega, by omega⟩

/-- A small catalog for the C5 witness: two courses inside
`[1000, 3000)`, one outside. -/
def levelsCatalog : CourseCatalog :=
  mkCatalog [mkCourse 1200 "Intro", mkCourse 2500 "Algorithms",
    mkCourse 6500 "Research"]

/-- Witness for C5 at `levelsCatalog` with `L_min = 1000`,
`L_max = 2000`. -/
theorem claimC5_witness :
    ((1000 : Int) ≤ 2000 ∧ (1000 : Int) ∣ 1000 ∧ (1000 : Int) ∣ 2000) ∧
    (((levelsCatalog.courses_by_level 1000 2000).map Prod.fst =
      (List.range ((((2000 : Int) - 1000) / 1000).toNat + 1)).map
        (fun i : ℕ => (1000 : Int) + 1000 * (i : Int))) ∧
    (∀ p ∈ levelsCatalog.courses_by_level 1000 2000,
      p.2 = levelsCatalog.courses.filter (fun c =>
        decide (p.1 ≤ c.number ∧ c.number < p.1 + 1000))) ∧
    List.Pairwise (fun p q => ∀ c, c ∈ p.2 → c ∉ q.2)
      (levelsCatalog.courses_by_level 1000 2000) ∧
    (∀ c, (∃ p ∈ levelsCatalog.courses_by_level 1000 2000, c ∈ p.2) ↔
      (c ∈ levelsCatalog.courses ∧ 1000 ≤ c.number ∧
        c.number < 2000 + 1000))) :=
  ⟨⟨by norm_num, by norm_num, by norm_num⟩,
    claimC5_courses_by_level_contract levelsCatalog 1000 2000
      (by norm_num) (by norm_num) (by norm_num)⟩
